import Mathlib

/-!
Verification development for the community.general nmcli Ansible module
(src/collections/ansible_collections/community/general/plugins/modules/nmcli.py).

The module is shallowly embedded: each Lean definition mirrors the Python
function named in its doc comment.  Machine strings are Lean strings
(the module forces LANG=C, so ASCII semantics of Python string methods
coincide with the Lean counterparts used here).  Python None is modelled
by Option / a dedicated null constructor.
-/

namespace NmcliModule

/-- Splitting of a character list at every occurrence of a separator,
Python str.split(sep) semantics (the empty input yields one empty
field). -/
def splitCharOn (sep : Char) : List Char → List (List Char)
  | [] => [[]]
  | c :: rest =>
    let r := splitCharOn sep rest
    if c = sep then [] :: r
    else
      match r with
      | h :: t => (c :: h) :: t
      | [] => [[c]]

/-- Python str.split(sep) for a one-character separator. -/
def strSplitOnChar (sep : Char) (s : String) : List String :=
  (splitCharOn sep s.toList).map String.mk

/-- Python str.strip() (ASCII whitespace; the module forces LANG=C). -/
def strTrim (s : String) : String :=
  String.mk (((s.toList.dropWhile Char.isWhitespace).reverse.dropWhile
    Char.isWhitespace).reverse)

/-- Python str.lstrip(). -/
def strTrimLeft (s : String) : String :=
  String.mk (s.toList.dropWhile Char.isWhitespace)

/-- Python str.startswith. -/
def strStartsWith (s pfx : String) : Bool :=
  pfx.toList.isPrefixOf s.toList

/-- Python str.upper() on ASCII text (MAC addresses and the like). -/
def strToUpper (s : String) : String :=
  String.mk (s.toList.map Char.toUpper)

/-- Python str.lower() on ASCII text. -/
def strToLower (s : String) : String :=
  String.mk (s.toList.map Char.toLower)

/-- Left-to-right non-overlapping replacement core of str.replace; the
input length is enough fuel because every step consumes at least one
character. -/
def replaceAllAux (pat repl : List Char) : Nat → List Char → List Char
  | 0, cs => cs
  | _, [] => []
  | fuel + 1, c :: rest =>
    if pat ≠ [] ∧ pat.isPrefixOf (c :: rest) then
      repl ++ replaceAllAux pat repl fuel ((c :: rest).drop pat.length)
    else c :: replaceAllAux pat repl fuel rest

/-- Python str.replace(pat, repl) for a nonempty pattern. -/
def strReplace (s pat repl : String) : String :=
  String.mk (replaceAllAux pat.toList repl.toList s.toList.length s.toList)

/-- Python str.join rendering used for message construction. -/
def joinWith (sep : String) : List String → String
  | [] => ""
  | h :: t => t.foldl (fun acc x => acc ++ sep ++ x) h

/-- Python str.splitlines for LF-separated text (the module parses nmcli
output produced with LANG=C, where lines are terminated by a single
newline).  A trailing newline does not create a final empty line. -/
def pySplitlines (s : String) : List String :=
  if s = "" then []
  else
    let parts := strSplitOnChar '\n' s
    if parts.getLast? = some "" then parts.dropLast else parts

/-- Double-quote character, written via its code point. -/
def dquote : Char := Char.ofNat 34

/-- Python str.strip('"'): remove all leading and trailing double quotes
(used on gsm.apn values in _compare_conn_params). -/
def stripDoubleQuotes (s : String) : String :=
  let l := s.toList.dropWhile (fun c => c = dquote)
  String.mk ((l.reverse.dropWhile (fun c => c = dquote)).reverse)

/-- Hexadecimal digit test, [0-9A-Fa-f] as in the wake-on-wlan regex. -/
def isHexDigitChar (c : Char) : Bool :=
  c.isDigit || (c ≥ 'a' && c ≤ 'f') || (c ≥ 'A' && c ≤ 'F')

/-- Numeric value of one hexadecimal digit. -/
def hexDigitVal (c : Char) : Nat :=
  if c.isDigit then c.toNat - '0'.toNat
  else if c ≥ 'a' && c ≤ 'f' then c.toNat - 'a'.toNat + 10
  else c.toNat - 'A'.toNat + 10

/-- Python int(s, 16) on a string of hexadecimal digits. -/
def hexToNat (l : List Char) : Nat :=
  l.foldl (fun acc c => acc * 16 + hexDigitVal c) 0

/-- Python string comparison a <= b: lexicographic by code point, a
proper prefix compares smaller. -/
def lexLe : List Char → List Char → Bool
  | [], _ => true
  | _ :: _, [] => false
  | a :: as, b :: bs => if a < b then true else if a = b then lexLe as bs else false

/-- Python string comparison a < b. -/
def lexLt : List Char → List Char → Bool
  | [], [] => false
  | [], _ :: _ => true
  | _ :: _, [] => false
  | a :: as, b :: bs => if a < b then true else if a = b then lexLt as bs else false

/-- Python <= on strings. -/
def strLeB (a b : String) : Bool := lexLe a.toList b.toList

/-- Python <= on strings as a relation, for the sorting lemmas. -/
def strLeProp (a b : String) : Prop := strLeB a b = true

instance : DecidableRel strLeProp := fun a b => by
  unfold strLeProp; infer_instance

/-- Insertion of an element into a sorted list, under a boolean
comparison; together with insertionSortB this is the executable stable
sort standing for Python sorted(). -/
def orderedInsertB {α : Type} (le : α → α → Bool) (a : α) : List α → List α
  | [] => [a]
  | b :: l => if le a b then a :: b :: l else b :: orderedInsertB le a l

/-- Stable insertion sort under a boolean comparison. -/
def insertionSortB {α : Type} (le : α → α → Bool) : List α → List α
  | [] => []
  | a :: l => orderedInsertB le a (insertionSortB le l)

/-- Python sorted() on a list of strings. -/
def sortList (l : List String) : List String :=
  insertionSortB strLeB l

instance : IsTotal String strLeProp := by
  constructor
  suffices h : ∀ as bs, lexLe as bs = true ∨ lexLe bs as = true by
    intro a b; exact h a.toList b.toList
  intro as
  induction as with
  | nil => intro bs; left; rfl
  | cons a as ih =>
    intro bs
    cases bs with
    | nil => right; rfl
    | cons b bs =>
      rcases lt_trichotomy a b with h | h | h
      · left; simp [lexLe, h]
      · subst h
        rcases ih bs with h2 | h2
        · left; simp [lexLe, h2]
        · right; simp [lexLe, h2]
      · right; simp [lexLe, h]

instance : IsTrans String strLeProp := by
  constructor
  suffices h : ∀ as bs cs, lexLe as bs = true → lexLe bs cs = true →
      lexLe as cs = true by
    intro a b c hab hbc; exact h a.toList b.toList c.toList hab hbc
  intro as
  induction as with
  | nil => intro bs cs _ _; rfl
  | cons a as ih =>
    intro bs cs hab hbc
    cases bs with
    | nil => simp [lexLe] at hab
    | cons b bs =>
      cases cs with
      | nil => simp [lexLe] at hbc
      | cons c cs =>
        simp only [lexLe] at hab hbc ⊢
        split at hab
        · rename_i h1
          split at hbc
          · rename_i h2; simp [lt_trans h1 h2]
          · split at hbc
            · rename_i h2; subst h2; simp [h1]
            · exact absurd hbc (by simp)
        · split at hab
          · rename_i h1e
            subst h1e
            split at hbc
            · rename_i h2; simp [h2]
            · split at hbc
              · rename_i h2; subst h2
                simp only [lt_irrefl, if_neg (lt_irrefl a), if_pos rfl]
                exact ih bs cs hab hbc
              · exact absurd hbc (by simp)
          · exact absurd hab (by simp)

instance : IsAntisymm String strLeProp := by
  constructor
  suffices h : ∀ as bs, lexLe as bs = true → lexLe bs as = true → as = bs by
    intro a b hab hba
    exact congrArg String.mk (h a.toList b.toList hab hba)
  intro as
  induction as with
  | nil =>
    intro bs _ hba
    cases bs with
    | nil => rfl
    | cons b bs => simp [lexLe] at hba
  | cons a as ih =>
    intro bs hab hba
    cases bs with
    | nil => simp [lexLe] at hab
    | cons b bs =>
      simp only [lexLe] at hab hba
      split at hab
      · rename_i h1
        rw [if_neg (lt_asymm h1), if_neg (ne_of_gt h1)] at hba
        exact absurd hba (by simp)
      · split at hab
        · rename_i h1e
          subst h1e
          rw [if_neg (lt_irrefl a), if_pos rfl] at hba
          rw [ih bs hab hba]
        · exact absurd hab (by simp)

/-- Setting value kinds distinguished by Nmcli.settings_type. -/
inductive SettingType where
  | bool
  | list
  | int
  | str
deriving DecidableEq

/-- Key set reported as bool by Nmcli.settings_type. -/
def boolSettingKeys : List String :=
  ["bridge.stp",
   "bridge-port.hairpin-mode",
   "connection.autoconnect",
   "ipv4.never-default",
   "ipv4.ignore-auto-dns",
   "ipv4.ignore-auto-routes",
   "ipv4.may-fail",
   "ipv6.ignore-auto-dns",
   "ipv6.ignore-auto-routes",
   "802-11-wireless.hidden",
   "team.runner-fast-rate"]

/-- Key set reported as list by Nmcli.settings_type. -/
def listSettingKeys : List String :=
  ["ipv4.addresses",
   "ipv6.addresses",
   "ipv4.dns",
   "ipv4.dns-search",
   "ipv4.dns-options",
   "ipv4.routes",
   "ipv4.routing-rules",
   "ipv6.dns",
   "ipv6.dns-search",
   "ipv6.dns-options",
   "ipv6.routes",
   "802-11-wireless-security.group",
   "802-11-wireless-security.leap-password-flags",
   "802-11-wireless-security.pairwise",
   "802-11-wireless-security.proto",
   "802-11-wireless-security.psk-flags",
   "802-11-wireless-security.wep-key-flags",
   "802-11-wireless.mac-address-blacklist"]

/-- Key set reported as int by Nmcli.settings_type. -/
def intSettingKeys : List String :=
  ["connection.autoconnect-priority", "connection.autoconnect-retries"]

/-- Nmcli.settings_type: declared type of a setting key. -/
def settings_type (setting : String) : SettingType :=
  if setting ∈ boolSettingKeys then .bool
  else if setting ∈ listSettingKeys then .list
  else if setting ∈ intSettingKeys then .int
  else .str

/-- Nmcli.mac_setting: the MAC-address setting name for the selected
connection type (self.type is Optional, None compares unequal to any
string in Python). -/
def mac_setting (ctype : Option String) : String :=
  if ctype = some "bridge" then "bridge.mac-address"
  else "802-3-ethernet.cloned-mac-address"

/-- Nmcli.mtu_setting: the MTU setting name for the selected type. -/
def mtu_setting (ctype : Option String) : String :=
  if ctype = some "infiniband" then "infiniband.mtu"
  else "802-3-ethernet.mtu"

/-- Nmcli.tunnel_conn_type. -/
def tunnel_conn_type (ctype : Option String) : Bool :=
  ctype = some "gre" || ctype = some "ipip" || ctype = some "sit"

/-- Nmcli.enforce_ipv4_cidr_notation: bare IPv4 addresses get a /32
suffix, addresses that already contain a slash are left alone.
Python tests substring membership, which for the one-character pattern
is character containment. -/
def enforce_ipv4_cidr_notation (ip4_addresses : Option (List String)) :
    Option (List String) :=
  match ip4_addresses with
  | none => none
  | some l => some (l.map (fun address =>
      if address.toList.contains '/' then address else address ++ "/32"))

/-- Nmcli.enforce_ipv6_cidr_notation: bare IPv6 addresses get a /128
suffix, addresses that already contain a slash are left alone. -/
def enforce_ipv6_cidr_notation (ip6_addresses : Option (List String)) :
    Option (List String) :=
  match ip6_addresses with
  | none => none
  | some l => some (l.map (fun address =>
      if address.toList.contains '/' then address else address ++ "/128"))

/-- Python values flowing through the change detector: strings, ints,
lists of strings, or None.  (Booleans are rendered to yes/no strings by
connection_options before comparison; floats do not occur.) -/
inductive PValue where
  | null
  | str (s : String)
  | int (n : Int)
  | list (l : List String)
deriving DecidableEq

/-- Python truthiness of a PValue. -/
def pyTruthy : PValue → Bool
  | .null => false
  | .str s => s ≠ ""
  | .int n => n ≠ 0
  | .list l => l ≠ []

/-- Ansible to_text as applied in _compare_conn_params: identity on
strings, decimal rendering of ints; None and lists get their Python
str() representation (only reachable on mismatching shapes). -/
def pyToText : PValue → String
  | .null => "None"
  | .str s => s
  | .int n => toString n
  | .list l => "[" ++ joinWith ", " (l.map (fun s => "'" ++ s ++ "'")) ++ "]"

/-- Word character of the route regex character class [\w-]. -/
def isWordDashChar (c : Char) : Bool :=
  c.isAlphanum || c = '_' || c = '-'

/-- Character admitted by the route regex value class [^\s,}]. -/
def isRouteValueChar (c : Char) : Bool :=
  !(c.isWhitespace || c = ',' || c = '}')

/-- One anchored attempt of the regex ([\w-]*)\s?=\s?([^\s,}]*) at the
head of cs: greedy word-dash run, at most one whitespace, a mandatory
equals sign, at most one whitespace, then a greedy value run.  Returns
the two capture groups and the remaining input.  (Backtracking cannot
produce any other match here: shortening the greedy word run leaves a
word character where the regex then requires whitespace or an equals
sign.) -/
def routeMatchHere (cs : List Char) : Option ((String × String) × List Char) :=
  let (w, rest1) := cs.span isWordDashChar
  let rest2? : Option (List Char) :=
    match rest1 with
    | '=' :: r => some r
    | c :: '=' :: r => if c.isWhitespace then some r else none
    | _ => none
  match rest2? with
  | none => none
  | some rest2 =>
    let rest3 := match rest2 with
      | c :: r => if c.isWhitespace then r else rest2
      | [] => []
    let (v, rest4) := rest3.span isRouteValueChar
    some ((String.mk w, String.mk v), rest4)

/-- Scanner core of re.findall for the route regex: try a match at each
position, consume it and continue after it, otherwise advance one
character.  Each successful match consumes at least the equals sign, so
the length of the input is enough fuel. -/
def routeFindAllAux : Nat → List Char → List (String × String)
  | 0, _ => []
  | _, [] => []
  | fuel + 1, cs =>
    match routeMatchHere cs with
    | some (p, rest) => p :: routeFindAllAux fuel rest
    | none =>
      match cs with
      | [] => []
      | _ :: rest => routeFindAllAux fuel rest

/-- re.findall(r'([\w-]*)\s?=\s?([^\s,}]*)', raw_value) as used by
Nmcli.get_route_params. -/
def routeFindAll (s : String) : List (String × String) :=
  routeFindAllAux s.toList.length s.toList

/-- Insertion into a Python dict modelled as an ordered association
list: replace in place if the key exists, append otherwise. -/
def assocUpd {β : Type} (m : List (String × β)) (k : String) (v : β) :
    List (String × β) :=
  if m.any (fun p => p.1 = k) then
    m.map (fun p => if p.1 = k then (k, v) else p)
  else m ++ [(k, v)]

/-- Ordering of Python dict items() tuples under sorted(): by key first
(keys are unique in a dict, so the value component never decides). -/
def pairLeB (a b : String × String) : Bool :=
  lexLt a.1.toList b.1.toList || (a.1 = b.1 && strLeB a.2 b.2)

/-- Nmcli.route_to_string: render a parsed route dict.  The ip entry is
mandatory in the source (a missing one raises KeyError in Python; that
cannot happen for dicts produced from well-formed nmcli route output,
and the fallback value here is the empty string). -/
def route_to_string (route : List (String × String)) : String :=
  let base := match route.lookup "ip" with
    | some ip => ip
    | none => ""
  let base := match route.lookup "next_hop" with
    | some nh => base ++ " " ++ nh
    | none => base
  let base := match route.lookup "metric" with
    | some mt => base ++ " " ++ mt
    | none => base
  (insertionSortB pairLeB route).foldl (fun acc kv =>
    if kv.1 = "ip" ∨ kv.1 = "next_hop" ∨ kv.1 = "metric" then acc
    else acc ++ " " ++ kv.1 ++ "=" ++ strToLower kv.2) base

/-- Nmcli.get_route_params: parse each raw route string with the route
regex, rename nh/mt to next_hop/metric, and re-render. -/
def get_route_params (raw_values : List String) : List String :=
  raw_values.map (fun raw_value =>
    let route_params := (routeFindAll raw_value).foldl (fun m pv =>
      if pv.1 = "nh" then assocUpd m "next_hop" pv.2
      else if pv.1 = "mt" then assocUpd m "metric" pv.2
      else assocUpd m pv.1 pv.2) []
    route_to_string route_params)

/-- Normalization of an observed 802-11-wireless.wake-on-wlan string:
re.match('0x([0-9A-Fa-f]+)', v) is anchored at the start and takes the
greedy hexadecimal run, which is then printed in decimal. -/
def wakeOnWlanNorm (s : String) : String :=
  if strStartsWith s "0x" then
    let hexRun := (s.toList.drop 2).takeWhile isHexDigitChar
    if hexRun = [] then s else toString (hexToNat hexRun)
  else s

/-- re.sub(r'\s*=\s*', '=', part, count=1): the leftmost match sits at
the first equals sign together with the whitespace immediately around
it; both whitespace runs collapse. -/
def subFirstEq (s : String) : String :=
  let (before, rest) := s.toList.span (fun c => c ≠ '=')
  match rest with
  | [] => s
  | _ :: after =>
    String.mk ((before.reverse.dropWhile Char.isWhitespace).reverse)
      ++ "=" ++ String.mk (after.dropWhile Char.isWhitespace)

/-- Observed-side normalization of vpn.data in _compare_conn_params. -/
def vpnDataCurrentNorm (s : String) : List String :=
  sortList ((strSplitOnChar ',' s).map (fun part => subFirstEq (strTrim part)))

/-- Desired-side normalization of vpn.data in _compare_conn_params. -/
def vpnDataValueNorm (s : String) : List String :=
  sortList ((strSplitOnChar ',' s).map strTrim)

/-- Keys whose list values compare as ordered sequences in
_compare_conn_params. -/
def orderSensitiveKeys : List String :=
  ["ipv4.addresses", "ipv6.addresses", "ipv4.dns", "ipv6.dns",
   "ipv4.dns-search", "ipv6.dns-search"]

/-- State threaded through the option loop of _compare_conn_params:
the changed flag, self.mtu (mutated by the loop), and the diff maps. -/
structure CompareState where
  changed : Bool
  mtu : Option Int
  diffBefore : List (String × PValue)
  diffAfter : List (String × PValue)
deriving DecidableEq

/-- One iteration of the option loop of Nmcli._compare_conn_params for
the pair (key, value) against conn_info.  Value normalizations that
Python applies to strings are applied to the str constructor only; on
any other shape the Python code would raise, which is outside the
modelled domain (such shapes do not occur for those keys). -/
def compareStep (ctype : Option String) (conn_info : List (String × PValue))
    (st : CompareState) (kv : String × PValue) : CompareState :=
  let key := kv.1
  let value := kv.2
  -- `if value not in (0, []) and not value: continue` skips exactly
  -- None and the empty string (0 and [] are exempted; Python False
  -- equals 0 and is exempted with it, but booleans are stringified
  -- before this point).
  if value = .null ∨ value = .str "" then st
  else
    let found := conn_info.any (fun p => p.1 = key)
    let current0 : PValue :=
      match conn_info.lookup key with
      | some v => v
      | none => .null
    -- 802-11-wireless.wake-on-wlan hex decoding.
    let current1 :=
      if found ∧ key = "802-11-wireless.wake-on-wlan" ∧ current0 ≠ .null then
        match current0 with
        | .str s => .str (wakeOnWlanNorm s)
        | v => v
      else current0
    -- ipv4.routes / ipv6.routes re-rendering of the observed value.
    let current2 :=
      if found ∧ (key = "ipv4.routes" ∨ key = "ipv6.routes")
          ∧ current1 ≠ .null then
        match current1 with
        | .list l => .list (get_route_params l)
        | v => v
      else current1
    -- MAC addresses are case insensitive: both sides are upper-cased.
    let value1 :=
      if found ∧ key = mac_setting ctype then
        match value with
        | .str s => .str (strToUpper s)
        | v => v
      else value
    let current3 :=
      if found ∧ key = mac_setting ctype ∧ pyTruthy current2 then
        match current2 with
        | .str s => .str (strToUpper s)
        | v => v
      else current2
    -- gsm.apn double-quote stripping.
    let current4 :=
      if found ∧ key = "gsm.apn" ∧ pyTruthy current3 then
        match current3 with
        | .str s => .str (stripDoubleQuotes s)
        | v => v
      else current3
    -- `if key == self.mtu_setting and self.mtu is None: self.mtu = 0`
    let mtu' :=
      if found ∧ key = mtu_setting ctype ∧ st.mtu = none then some (0 : Int)
      else st.mtu
    -- vpn.data: both sides become sorted comma-part lists.
    let value2 :=
      if found ∧ key = "vpn.data" then
        match value1 with
        | .str s => .list (vpnDataValueNorm s)
        | v => v
      else value1
    let current5 :=
      if found ∧ key = "vpn.data" ∧ pyTruthy current4 then
        match current4 with
        | .str s => .list (vpnDataCurrentNorm s)
        | v => v
      else current4
    match current5, value2 with
    | .list curl, .list vall =>
      -- Two lists: address/DNS/search lists compare ordered, the rest
      -- compare after sorting.
      let changed' :=
        if key ∈ orderSensitiveKeys then st.changed || (curl ≠ vall)
        else st.changed || (sortList curl ≠ sortList vall)
      { changed := changed', mtu := mtu',
        diffBefore := assocUpd st.diffBefore key (.list curl),
        diffAfter := assocUpd st.diffAfter key (.list vall) }
    | cur, val =>
      if key = mtu_setting ctype ∧ ctype = some "dummy" ∧ cur = .null
          ∧ val = .str "auto" ∧ mtu' = none then
        -- dummy-device MTU special case: the diff records None, the
        -- changed flag is untouched.
        { changed := st.changed, mtu := mtu',
          diffBefore := assocUpd st.diffBefore key cur,
          diffAfter := assocUpd st.diffAfter key .null }
      else
        let valText := PValue.str (pyToText val)
        { changed := st.changed || (cur ≠ valText), mtu := mtu',
          diffBefore := assocUpd st.diffBefore key cur,
          diffAfter := assocUpd st.diffAfter key valText }

/-- Nmcli._compare_conn_params: fold the option map (in insertion
order) against the observed connection info; returns the changed flag
and the before/after diff. -/
def compare_conn_params (ctype : Option String) (mtu : Option Int)
    (conn_info options : List (String × PValue)) :
    Bool × (List (String × PValue) × List (String × PValue)) :=
  let st := options.foldl (compareStep ctype conn_info)
    { changed := false, mtu := mtu, diffBefore := [], diffAfter := [] }
  (st.changed, (st.diffBefore, st.diffAfter))

/-- Match of the enum-value pattern ^([-]?\d+) \((\w+)\)$ against a raw
value; on success returns the numeric group (group 1).  The greedy
digit and word runs are forced: the characters that must follow them
are not members of their classes. -/
def parseEnumValue (s : String) : Option String :=
  let cs := s.toList
  let (sign, rest) : List Char × List Char :=
    match cs with
    | '-' :: r => (['-'], r)
    | r => ([], r)
  let (digits, rest2) := rest.span Char.isDigit
  if digits = [] then none
  else
    match rest2 with
    | ' ' :: '(' :: rest3 =>
      let (w, rest4) := rest3.span (fun c => c.isAlphanum || c = '_')
      if w ≠ [] ∧ rest4 = [')'] then some (String.mk (sign ++ digits))
      else none
    | _ => none

/-- Processing of one output line of nmcli con show by
Nmcli.show_connection: split at the first colon, strip the key, and
store the value according to the key's declared setting type.  The
empty marker -- stores the empty list for list-typed keys and None for
all others; bond.options expands comma-separated option=value aliases
into individual entries. -/
def processShowLine (conn_info : List (String × PValue)) (line : String) :
    List (String × PValue) :=
  let (beforeCs, rest) := line.toList.span (fun c => c ≠ ':')
  match rest with
  | [] => conn_info  -- no colon: line.split(':', 1) has one element
  | _ :: afterCs =>
    let key := strTrim (String.mk beforeCs)
    if key = "" then conn_info
    else
      let raw_value := strTrimLeft (String.mk afterCs)
      if raw_value = "--" then
        if settings_type key = .list then assocUpd conn_info key (.list [])
        else assocUpd conn_info key .null
      else if key = "bond.options" then
        (strSplitOnChar ',' raw_value).foldl (fun m opt =>
          let (akCs, arest) := opt.toList.span (fun c => c ≠ '=')
          match arest with
          | [] => m
          | _ :: avCs => assocUpd m (String.mk akCs) (.str (String.mk avCs))) conn_info
      else if key = "ipv4.routes" ∨ key = "ipv6.routes" then
        assocUpd conn_info key (.list ((strSplitOnChar ';' raw_value).map strTrim))
      else if settings_type key = .list then
        assocUpd conn_info key (.list ((strSplitOnChar ',' raw_value).map strTrim))
      else
        match parseEnumValue raw_value with
        | some num => assocUpd conn_info key (.str num)
        | none => assocUpd conn_info key (.str raw_value)

/-- Parsing loop of Nmcli.show_connection over the whole stdout of
nmcli --show-secrets con show. -/
def parseShowOutput (out : String) : List (String × PValue) :=
  (pySplitlines out).foldl processShowLine []

/-- Nmcli.SECRET_OPTIONS. -/
def secretOptionKeys : List String :=
  ["802-11-wireless-security.leap-password",
   "802-11-wireless-security.psk",
   "802-11-wireless-security.wep-key0",
   "802-11-wireless-security.wep-key1",
   "802-11-wireless-security.wep-key2",
   "802-11-wireless-security.wep-key3"]

/-- Option map built by Nmcli.connection_update before command
emission: the interface name defaults to the connection name on
creation, the entry is dropped for interface-less VPN connections, and
the result of connection_options (passed here as the abstract ordered
association list extra, whose values connection_options renders as
strings or None) is merged in with Python dict update semantics.
connection_options never produces a connection.interface-name entry. -/
def connection_update_options (nmcli_command : String) (conn_name : String)
    (ifname : Option String) (ctype : Option String)
    (extra : List (String × Option String)) : List (String × Option String) :=
  let ifname' := if nmcli_command = "create" ∧ ifname = none
    then some conn_name else ifname
  let options : List (String × Option String) :=
    [("connection.interface-name", ifname')]
  let options :=
    if ctype = some "vpn" ∧ ifname = none then
      options.filter (fun p => p.1 ≠ "connection.interface-name")
    else options
  extra.foldl (fun m kv => assocUpd m kv.1 kv.2) options

/-- One step of the command-vector emission loop of
Nmcli.connection_update: None values are skipped, secret options are
diverted to edit commands, the two bond aliases are rewritten to
+bond.options, everything else is appended as a key value pair. -/
def emitStep (acc : List String × List String) (kv : String × Option String) :
    List String × List String :=
  match kv.2 with
  | none => acc
  | some v =>
    if kv.1 ∈ secretOptionKeys then
      (acc.1, acc.2 ++ ["set " ++ kv.1 ++ " " ++ v])
    else if kv.1 = "xmit_hash_policy" then
      (acc.1 ++ ["+bond.options", "xmit_hash_policy=" ++ v], acc.2)
    else if kv.1 = "fail_over_mac" then
      (acc.1 ++ ["+bond.options", "fail_over_mac=" ++ v], acc.2)
    else (acc.1 ++ [kv.1, v], acc.2)

/-- Command-vector emission loop of Nmcli.connection_update. -/
def emitOptions (options : List (String × Option String)) :
    List String × List String :=
  options.foldl emitStep ([], [])

/-- Nmcli.connection_update: build the full nmcli argument vector (the
nmcli binary path resolved by get_bin_path is modelled by its name) and
the accumulated edit commands.  Returns none for an invalid command
(the source calls fail_json there).  A missing connection type on
creation renders as the text None, as to_text does for Python None. -/
def connection_update_cmd (nmcli_command : String) (conn_name : String)
    (ifname : Option String) (ctype : Option String)
    (extra : List (String × Option String)) :
    Option (List String × List String) :=
  let base? : Option (List String) :=
    if nmcli_command = "create" then
      some (["nmcli", "con", "add", "type"]
        ++ [if tunnel_conn_type ctype then "ip-tunnel"
            else (match ctype with | some t => t | none => "None")]
        ++ ["con-name"])
    else if nmcli_command = "modify" then some ["nmcli", "con", "modify"]
    else none
  match base? with
  | none => none
  | some base =>
    let cmd0 := base ++ [conn_name]
    let (args, edits) :=
      emitOptions (connection_update_options nmcli_command conn_name ifname ctype extra)
    some (cmd0 ++ args, edits)

/-- External nmcli invocations made by the driver, at the granularity
of the helper that issues them.  editProbe is the read-only capability
query of get_supported_properties (an interactive edit session that is
quit without saving); editSession is the secret-setting session of
edit_connection, which saves. -/
inductive Cmd where
  | listConns                  -- nmcli --fields name --terse con show
  | showConn (name : String)   -- nmcli --show-secrets con show NAME
  | editProbe (setting : String)  -- nmcli con edit type TYPE (print/quit)
  | down (name : String)       -- nmcli con down NAME
  | up (name : String)         -- nmcli con up NAME
  | reload                     -- nmcli con reload
  | del (name : String)        -- nmcli con del NAME
  | add (name : String)        -- nmcli con add ... (connection_update)
  | modify (name : String)     -- nmcli con modify ... (connection_update)
  | editSession (name : String)  -- nmcli con edit NAME (set/save/quit)
deriving DecidableEq

/-- Whether a command mutates system state.  The three query commands
only read; every other command changes connections. -/
def Cmd.mutating : Cmd → Bool
  | .listConns => false
  | .showConn _ => false
  | .editProbe _ => false
  | _ => true

/-- Result of one external command: exit code, stdout, stderr. -/
structure CmdRes where
  rc : Int
  out : String
  err : String
deriving DecidableEq

/-- How a run of main ends: an early module.exit_json from check mode,
a module.fail_json (with the rc key when one is passed), an uncaught
NmcliModuleError raised outside the try block, or the final
module.exit_json carrying changed plus the last stdout/stderr (empty
strings mean the keys are omitted from the result). -/
inductive Term where
  | earlyExit (changed : Bool)
  | fail (rc : Option Int) (msg : String)
  | uncaught (msg : String)
  | finish (changed : Bool) (out err : String)
deriving DecidableEq

/-- Module parameters and invocation context used by main; argspec
defaults are materialized (conn_reload defaults to false, runner to
roundrobin, the wifi dicts to empty maps standing for Python None or
an empty dict alike). -/
structure Args where
  state : String
  conn_name : String
  check_mode : Bool
  conn_reload : Bool
  ctype : Option String        -- the type parameter
  ifname : Option String
  mtu : Option Int
  dns4 : Option (List String)
  dns6 : Option (List String)
  master : Option String
  slave_type : Option String
  runner : String
  runner_hwaddr_policy : Option String
  runner_fast_rate : Option Bool
  wifi : List (String × String)
  wifi_sec : List (String × String)
  ignore_unsupported_suboptions : Bool

/-- Results the external tool would return for each invocation the
driver can make during one run.  Two listings and two shows can occur
in one run; they are numbered chronologically.  connChanged abstracts
the boolean outcome of _compare_conn_params inside
is_connection_changed (modelled in full by compare_conn_params; it
issues no commands of its own), and observedConnType abstracts
show_connection().get('connection.type'). -/
structure Env where
  listRes1 : CmdRes
  listRes2 : CmdRes
  showRes1 : CmdRes
  showRes2 : CmdRes
  observedConnType : Option String
  connChanged : Bool
  downRes : CmdRes
  upRes : CmdRes
  delRes : CmdRes
  reloadRes : CmdRes
  addRes : CmdRes
  modifyRes : CmdRes
  editRes : CmdRes
  wifiProbeRes : CmdRes
  wifiSecProbeRes : CmdRes

/-- Truthiness of an optional string parameter (Python None and the
empty string are falsy). -/
def optTruthy : Option String → Bool
  | none => false
  | some s => s ≠ ""

/-- Nmcli.connection_exists applied to the lines of a listing. -/
def connectionExists (conn_name : String) (out : String) : Bool :=
  (pySplitlines out).contains conn_name

/-- Nmcli.create_connection_up: whether a freshly created connection is
brought up immediately. -/
def create_connection_up (ctype : Option String) (mtu : Option Int)
    (dns4 dns6 : Option (List String)) : Bool :=
  if ctype = some "bond" ∨ ctype = some "dummy" ∨ ctype = some "ethernet"
      ∨ ctype = some "infiniband" ∨ ctype = some "wifi" then
    mtu ≠ none ∨ dns4 ≠ none ∨ dns6 ≠ none
  else if ctype = some "team" then
    dns4 ≠ none ∨ dns6 ≠ none
  else false

/-- Whether connection_update would queue secret-setting edit commands:
only the wifi-security secret options reach the option map, and only
for wifi connections (dict values are strings, hence never None). -/
def secretsActive (ctype : Option String) (wifi_sec : List (String × String)) :
    Bool :=
  ctype = some "wifi" && wifi_sec.any (fun p =>
    ("802-11-wireless-security." ++ p.1) ∈ secretOptionKeys)

/-- Property-name extraction of Nmcli.get_supported_properties from the
stdout of the capability probe: lines starting with the setting prefix
contribute their key part, stripped and with every occurrence of the
prefix removed. -/
def parseSupportedProps (setting : String) (out : String) : List String :=
  let pfx := setting ++ "."
  (pySplitlines out).filterMap (fun line =>
    if strStartsWith line pfx then
      let (beforeCs, _) := line.toList.span (fun c => c ≠ ':')
      some (strReplace (strTrim (String.mk beforeCs)) pfx "")
    else none)

/-- Failure message of Nmcli.check_for_unsupported_properties. -/
def unsupportedMsg (setting_key : String) (props : List String) : String :=
  let q := String.mk [dquote]
  "Invalid or unsupported option(s): " ++ q
    ++ joinWith (q ++ ", " ++ q)
        (props.map (fun p => setting_key ++ "." ++ p)) ++ q

/-- One unsupported-property check of the wifi block
(Nmcli.check_for_unsupported_properties): gated on the original dict
being truthy, it probes the external tool for the supported properties,
escapes with an uncaught NmcliModuleError when the probe fails, fails
the run when unsupported options are present and not ignored, and
otherwise reports the unsupported option names.  The unsupported-name
computation of the check is split out here. -/
def wifiUnsupported (setting : String) (probe : CmdRes)
    (dict : List (String × String)) : List String :=
  (dict.filter (fun p =>
    ¬ (parseSupportedProps setting probe.out).contains p.1)).map Prod.fst

/-- Gated unsupported-property check, continued: see wifiUnsupported
for the unsupported-name computation. -/
def wifiCheckProps (gate : Bool) (probe : CmdRes) (setting settingKey : String)
    (dict : List (String × String)) (ignore : Bool) :
    List Cmd × Option Term × List String :=
  if gate then
    if probe.rc ≠ 0 then
      ([.editProbe setting], some (.uncaught probe.err), [])
    else if wifiUnsupported setting probe dict ≠ [] ∧ ¬ ignore then
      ([.editProbe setting],
        some (.fail none
          (unsupportedMsg settingKey (wifiUnsupported setting probe dict))),
        wifiUnsupported setting probe dict)
    else ([.editProbe setting], none, wifiUnsupported setting probe dict)
  else ([], none, [])

/-- Wifi part of the pre-try stage of main: the two
unsupported-property checks in order (the first one on the wifi dict
with its ssid entry removed), short-circuiting on an early termination,
followed by the deletion of ignored unsupported options from wifi_sec. -/
def stageWifi (a : Args) (e : Env) :
    List Cmd × Option Term × List (String × String) :=
  let w1 := wifiCheckProps (a.wifi ≠ []) e.wifiProbeRes "802-11-wireless"
    "wifi" (a.wifi.filter (fun p => p.1 ≠ "ssid"))
    a.ignore_unsupported_suboptions
  match w1.2.1 with
  | some t => (w1.1, some t, a.wifi_sec)
  | none =>
    let w2 := wifiCheckProps (a.wifi_sec ≠ []) e.wifiSecProbeRes
      "802-11-wireless-security" "wifi_sec" a.wifi_sec
      a.ignore_unsupported_suboptions
    match w2.2.1 with
    | some t => (w1.1 ++ w2.1, some t, a.wifi_sec)
    | none =>
      -- unsupported options are deleted from the dicts when they are
      -- to be ignored.
      let wifiSec2 := if a.ignore_unsupported_suboptions then
          a.wifi_sec.filter (fun p => ¬ (w2.2.2).contains p.1)
        else a.wifi_sec
      (w1.1 ++ w2.1, none, wifiSec2)

/-- Pre-try stage of main: extra_options_validation (run by the Nmcli
constructor), the team and team-slave checks, and the wifi
unsupported-property checks with their capability probes.  Returns the
emitted commands, an early termination if one fires, and the wifi_sec
dict after the optional deletion of unsupported options (the wifi dict
itself is not consumed by the abstracted remainder of the run).  The
wifi check runs on the dict with its ssid entry removed, the wifi_sec
check on the full dict; both probes run before the try block. -/
def stagePre (a : Args) (e : Env) :
    List Cmd × Option Term × List (String × String) :=
  -- extra_options_validation, called from Nmcli.__init__ (Python None
  -- is not a member of the slave-type tuple).
  if a.ctype ≠ some "bridge-slave" ∧ a.ctype ≠ some "team-slave"
      ∧ a.ctype ≠ some "bond-slave"
      ∧ a.master = none ∧ a.slave_type ≠ none then
    ([], some (.fail none
      "'master' option is required when 'slave_type' is specified."), a.wifi_sec)
  -- team checks.
  else if a.ctype = some "team" ∧ optTruthy a.runner_hwaddr_policy
      ∧ a.runner ≠ "activebackup" then
    ([], some (.fail none
      "Runner-hwaddr-policy is only allowed for runner activebackup"), a.wifi_sec)
  else if a.ctype = some "team" ∧ a.runner_fast_rate ≠ none
      ∧ a.runner ≠ "lacp" then
    ([], some (.fail none
      "runner-fast-rate is only allowed for runner lacp"), a.wifi_sec)
  -- team-slave checks.
  else if (a.ctype = some "team-slave" ∨ a.slave_type = some "team")
      ∧ a.master = none then
    ([], some (.fail none "Please specify a name for the master"), a.wifi_sec)
  else if (a.ctype = some "team-slave" ∨ a.slave_type = some "team")
      ∧ a.ifname = none then
    ([], some (.fail none "Please specify an interface name for the connection"),
      a.wifi_sec)
  else if a.ctype = some "wifi" then stageWifi a e
  else ([], none, a.wifi_sec)

/-- The absent branch of main: existence check, check-mode early exit,
then down followed by delete; only the delete status is inspected. -/
def runAbsent (a : Args) (e : Env) : List Cmd × Term :=
  if e.listRes1.rc ≠ 0 then
    ([.listConns], .fail none e.listRes1.err)
  else if connectionExists a.conn_name e.listRes1.out then
    if a.check_mode then ([.listConns], .earlyExit true)
    else
      let tr := [Cmd.listConns, .down a.conn_name, .del a.conn_name]
      if e.delRes.rc ≠ 0 then
        (tr, .fail (some e.delRes.rc) e.delRes.err)
      else (tr, .finish true e.delRes.out e.delRes.err)
  else ([.listConns], .finish false "" "")

/-- Nmcli.is_connection_changed at command granularity: an extra show
runs first when the type must be inferred from the observed connection
(normalizing the legacy 802-11-wireless name), then the comparison show
runs.  Returns the commands and either the error text of a failing show
or the changed flag together with the (possibly inferred) type. -/
def isConnChanged (a : Args) (e : Env) :
    List Cmd × Except String (Bool × Option String) :=
  if a.ctype = none then
    if e.showRes1.rc ≠ 0 then
      ([.showConn a.conn_name], .error e.showRes1.err)
    else
      let ctype' := match e.observedConnType with
        | some t => if t ≠ "" then
            some (if t = "802-11-wireless" then "wifi" else t)
          else none
        | none => none
      if e.showRes2.rc ≠ 0 then
        ([.showConn a.conn_name, .showConn a.conn_name], .error e.showRes2.err)
      else
        ([.showConn a.conn_name, .showConn a.conn_name],
          .ok (e.connChanged, ctype'))
  else
    if e.showRes1.rc ≠ 0 then
      ([.showConn a.conn_name], .error e.showRes1.err)
    else ([.showConn a.conn_name], .ok (e.connChanged, a.ctype))

/-- Nmcli.modify_connection at command granularity. -/
def runModifyConn (a : Args) (e : Env) (ctype : Option String)
    (wifiSec : List (String × String)) : List Cmd × CmdRes :=
  let st := e.modifyRes
  if st.rc = 0 ∧ secretsActive ctype wifiSec then
    ([.modify a.conn_name, .editSession a.conn_name], e.editRes)
  else ([.modify a.conn_name], st)

/-- Nmcli.create_connection at command granularity: the connection is
added, secrets are applied through an edit session if the add
succeeded, and the connection is brought up when create_connection_up
holds (the up status then overwrites the earlier one). -/
def runCreateConn (a : Args) (e : Env) (ctype : Option String)
    (wifiSec : List (String × String)) : List Cmd × CmdRes :=
  let first :=
    if e.addRes.rc = 0 ∧ secretsActive ctype wifiSec then
      ([Cmd.add a.conn_name, Cmd.editSession a.conn_name], e.editRes)
    else ([Cmd.add a.conn_name], e.addRes)
  if create_connection_up ctype a.mtu a.dns4 a.dns6 then
    (first.1 ++ [Cmd.up a.conn_name], e.upRes)
  else first

/-- Second half of the present branch: the re-listing guard around
create_connection, then the shared rc check.  rcStatus is the status
left by the modify sub-branch (none when no command ran yet). -/
def runPresentPhase2 (a : Args) (e : Env) (ctype : Option String)
    (wifiSec : List (String × String)) (rcStatus : Option CmdRes) :
    List Cmd × Term :=
  if e.listRes2.rc ≠ 0 then
    ([.listConns], .fail none e.listRes2.err)
  else if ¬ connectionExists a.conn_name e.listRes2.out then
    if a.check_mode then ([.listConns], .earlyExit true)
    else
      let cr := runCreateConn a e ctype wifiSec
      if cr.2.rc ≠ 0 then
        (Cmd.listConns :: cr.1, .fail (some cr.2.rc) cr.2.err)
      else (Cmd.listConns :: cr.1, .finish true cr.2.out cr.2.err)
  else
    match rcStatus with
    | some st =>
      if st.rc ≠ 0 then ([.listConns], .fail (some st.rc) st.err)
      else ([.listConns], .finish true st.out st.err)
    | none => ([.listConns], .finish false "" "")

/-- The present branch of main. -/
def runPresent (a : Args) (e : Env) (wifiSec : List (String × String)) :
    List Cmd × Term :=
  if e.listRes1.rc ≠ 0 then
    ([.listConns], .fail none e.listRes1.err)
  else if connectionExists a.conn_name e.listRes1.out then
    let ic := isConnChanged a e
    match ic.2 with
    | .error msg => (Cmd.listConns :: ic.1, .fail none msg)
    | .ok (changed, ctype') =>
      if changed then
        if a.check_mode then (Cmd.listConns :: ic.1, .earlyExit true)
        else
          let mr0 := runModifyConn a e ctype' wifiSec
          let mr := if a.conn_reload then (mr0.1 ++ [Cmd.reload], e.reloadRes)
            else mr0
          let p2 := runPresentPhase2 a e ctype' wifiSec (some mr.2)
          (Cmd.listConns :: ic.1 ++ mr.1 ++ p2.1, p2.2)
      else
        if a.check_mode then (Cmd.listConns :: ic.1, .earlyExit false)
        else
          let p2 := runPresentPhase2 a e ctype' wifiSec none
          (Cmd.listConns :: ic.1 ++ p2.1, p2.2)
  else
    let p2 := runPresentPhase2 a e a.ctype wifiSec none
    (Cmd.listConns :: p2.1, p2.2)

/-- The up branch of main: optional reload, then up; only the up status
is inspected. -/
def runUp (a : Args) (e : Env) : List Cmd × Term :=
  if e.listRes1.rc ≠ 0 then
    ([.listConns], .fail none e.listRes1.err)
  else if connectionExists a.conn_name e.listRes1.out then
    if a.check_mode then ([.listConns], .earlyExit true)
    else
      let tr := [Cmd.listConns]
        ++ (if a.conn_reload then [Cmd.reload] else [])
        ++ [Cmd.up a.conn_name]
      if e.upRes.rc ≠ 0 then (tr, .fail (some e.upRes.rc) e.upRes.err)
      else (tr, .finish true e.upRes.out e.upRes.err)
  else ([.listConns], .finish false "" "")

/-- The down branch of main. -/
def runDown (a : Args) (e : Env) : List Cmd × Term :=
  if e.listRes1.rc ≠ 0 then
    ([.listConns], .fail none e.listRes1.err)
  else if connectionExists a.conn_name e.listRes1.out then
    if a.check_mode then ([.listConns], .earlyExit true)
    else
      let tr := [Cmd.listConns]
        ++ (if a.conn_reload then [Cmd.reload] else [])
        ++ [Cmd.down a.conn_name]
      if e.downRes.rc ≠ 0 then (tr, .fail (some e.downRes.rc) e.downRes.err)
      else (tr, .finish true e.downRes.out e.downRes.err)
  else ([.listConns], .finish false "" "")

/-- State dispatch of main's try block (the argspec restricts state to
these four values; any other value runs no branch and reports
unchanged). -/
def dispatch (a : Args) (e : Env) (wifiSec : List (String × String)) :
    List Cmd × Term :=
  if a.state = "absent" then runAbsent a e
  else if a.state = "present" then runPresent a e wifiSec
  else if a.state = "up" then runUp a e
  else if a.state = "down" then runDown a e
  else ([], .finish false "" "")

/-- The main entry point of the module: validations and wifi checks,
then the state machine over the four intents. -/
def runMain (a : Args) (e : Env) : List Cmd × Term :=
  let pre := stagePre a e
  match pre.2.1 with
  | some t => (pre.1, t)
  | none =>
    (pre.1 ++ (dispatch a e pre.2.2).1, (dispatch a e pre.2.2).2)

/-- Neutral command result: success with empty output. -/
def resOk : CmdRes := ⟨0, "", ""⟩

/-- Environment in which every command succeeds and the listing reports
exactly the connection c0. -/
def envNeutral : Env :=
  ⟨⟨0, "c0\n", ""⟩,  -- listRes1
   ⟨0, "c0\n", ""⟩,  -- listRes2
   resOk, resOk,      -- showRes1, showRes2
   none, false,       -- observedConnType, connChanged
   resOk, resOk, resOk, resOk, resOk, resOk, resOk, resOk, resOk⟩

/-- Environment in which the listing does not contain c0. -/
def envNoConn : Env :=
  ⟨⟨0, "other\n", ""⟩, ⟨0, "other\n", ""⟩, resOk, resOk, none, false,
   resOk, resOk, resOk, resOk, resOk, resOk, resOk, resOk, resOk⟩

/-- Environment in which the down command fails with exit code 4 while
everything else succeeds. -/
def envDownFail : Env :=
  ⟨⟨0, "c0\n", ""⟩, ⟨0, "c0\n", ""⟩, resOk, resOk, none, false,
   ⟨4, "", "device disconnect failed"⟩,  -- downRes
   resOk, resOk, resOk, resOk, resOk, resOk, resOk, resOk⟩

/-- Environment in which the delete command fails with exit code 10. -/
def envDelFail : Env :=
  ⟨⟨0, "c0\n", ""⟩, ⟨0, "c0\n", ""⟩, resOk, resOk, none, false,
   resOk, resOk,
   ⟨10, "", "connection deletion failed"⟩,  -- delRes
   resOk, resOk, resOk, resOk, resOk, resOk⟩

/-- Invocation: state=absent on connection c0, ethernet, no extras. -/
def argsAbsent : Args :=
  ⟨"absent", "c0", false, false, some "ethernet", none, none, none, none,
   none, none, "roundrobin", none, none, [], [], false⟩

/-- Invocation: state=absent on c0 in check mode. -/
def argsAbsentChk : Args :=
  ⟨"absent", "c0", true, false, some "ethernet", none, none, none, none,
   none, none, "roundrobin", none, none, [], [], false⟩

/-- Invocation: state=present, type bridge, mtu set, no extras. -/
def argsPresentBridgeMtu : Args :=
  ⟨"present", "c0", false, false, some "bridge", none, some 1500, none,
   none, none, none, "roundrobin", none, none, [], [], false⟩

/-- Invocation: state=present, type ethernet, mtu set, no extras. -/
def argsPresentEthMtu : Args :=
  ⟨"present", "c0", false, false, some "ethernet", none, some 1500, none,
   none, none, none, "roundrobin", none, none, [], [], false⟩

/-- Invocation: state=up with conn_reload=true. -/
def argsUpReload : Args :=
  ⟨"up", "c0", false, true, some "ethernet", none, none, none, none,
   none, none, "roundrobin", none, none, [], [], false⟩

/-! Helper lemmas. -/

theorem string_mk_toList (s : String) : String.mk s.toList = s := rfl

theorem takeWhile_append_all {α : Type} (p : α → Bool) (l₁ l₂ : List α)
    (h : ∀ a ∈ l₁, p a = true) :
    (l₁ ++ l₂).takeWhile p = l₁ ++ l₂.takeWhile p := by
  induction l₁ with
  | nil => simp
  | cons x xs ih =>
    have hx : p x = true := h x (by simp)
    simp [List.takeWhile, hx]
    exact ih (fun a ha => h a (by simp [ha]))

theorem dropWhile_append_all {α : Type} (p : α → Bool) (l₁ l₂ : List α)
    (h : ∀ a ∈ l₁, p a = true) :
    (l₁ ++ l₂).dropWhile p = l₂.dropWhile p := by
  induction l₁ with
  | nil => simp
  | cons x xs ih =>
    have hx : p x = true := h x (by simp)
    simp [List.dropWhile, hx]
    exact ih (fun a ha => h a (by simp [ha]))

-- The executable sort agrees with Mathlib's insertion sort under the
-- propositional form of the Python string order.
theorem orderedInsertB_eq_orderedInsert (a : String) (l : List String) :
    orderedInsertB strLeB a l = List.orderedInsert strLeProp a l := by
  induction l with
  | nil => rfl
  | cons b t ih =>
    by_cases h : strLeB a b = true
    · simp [orderedInsertB, List.orderedInsert, strLeProp, h]
    · simp [orderedInsertB, List.orderedInsert, strLeProp, h,
        Bool.not_eq_true] at ih ⊢
      exact ih

theorem insertionSortB_eq_insertionSort (l : List String) :
    insertionSortB strLeB l = List.insertionSort strLeProp l := by
  induction l with
  | nil => rfl
  | cons a t ih =>
    simp only [insertionSortB, List.insertionSort, ih]
    exact orderedInsertB_eq_orderedInsert a _

-- Python sorted() yields the same result on any two lists that are
-- permutations of each other (the string order is total, transitive
-- and antisymmetric).
theorem sortList_perm_eq {l₁ l₂ : List String} (h : l₁.Perm l₂) :
    sortList l₁ = sortList l₂ := by
  rw [sortList, sortList, insertionSortB_eq_insertionSort,
    insertionSortB_eq_insertionSort]
  refine List.eq_of_perm_of_sorted
    (((List.perm_insertionSort strLeProp l₁).trans h).trans
      (List.perm_insertionSort strLeProp l₂).symm)
    (List.sorted_insertionSort strLeProp l₁)
    (List.sorted_insertionSort strLeProp l₂)

-- The MAC setting name is one of two fixed strings, whatever the type.
theorem mac_setting_cases (ctype : Option String) :
    mac_setting ctype = "bridge.mac-address" ∨
      mac_setting ctype = "802-3-ethernet.cloned-mac-address" := by
  unfold mac_setting; split
  · exact Or.inl rfl
  · exact Or.inr rfl

-- The MTU setting name is one of two fixed strings, whatever the type.
theorem mtu_setting_cases (ctype : Option String) :
    mtu_setting ctype = "infiniband.mtu" ∨
      mtu_setting ctype = "802-3-ethernet.mtu" := by
  unfold mtu_setting; split
  · exact Or.inl rfl
  · exact Or.inr rfl

-- Only the keys of the literal list table are reported as list-typed.
theorem settings_type_list_mem (key : String)
    (h : settings_type key = .list) : key ∈ listSettingKeys := by
  unfold settings_type at h
  split_ifs at h <;> simp_all

-- Evaluation of the change detector on a single setting whose desired
-- and observed values are both lists, for a key free of every
-- value-normalization special case.
theorem compareStep_list_list (ctype : Option String) (mtu : Option Int)
    (key : String) (cur val : List String)
    (hw : key ≠ "802-11-wireless.wake-on-wlan")
    (hr4 : key ≠ "ipv4.routes") (hr6 : key ≠ "ipv6.routes")
    (hmac : key ≠ mac_setting ctype) (hgsm : key ≠ "gsm.apn")
    (hvpn : key ≠ "vpn.data") :
    (compare_conn_params ctype mtu [(key, .list cur)] [(key, .list val)]).1 =
      (if key ∈ orderSensitiveKeys then decide (cur ≠ val)
        else decide (sortList cur ≠ sortList val)) := by
  simp [compare_conn_params, compareStep, hw, hr4, hr6, hmac, hgsm, hvpn,
    List.lookup]

-- A gated wifi check with an empty gate does nothing.
theorem wifiCheckProps_gate_false (pr : CmdRes) (st sk : String)
    (d : List (String × String)) (ig : Bool) :
    wifiCheckProps false pr st sk d ig = ([], none, []) := rfl

-- The trace of a wifi check is the probe alone, and only when gated.
theorem wifiCheckProps_fst (g : Bool) (pr : CmdRes) (st sk : String)
    (d : List (String × String)) (ig : Bool) :
    (wifiCheckProps g pr st sk d ig).1 =
      (if g then [Cmd.editProbe st] else []) := by
  unfold wifiCheckProps
  split_ifs <;> rfl

-- A wifi check only issues the read-only capability probe.
theorem wifiCheckProps_cmds (g : Bool) (pr : CmdRes) (st sk : String)
    (d : List (String × String)) (ig : Bool) :
    ∀ c ∈ (wifiCheckProps g pr st sk d ig).1, c.mutating = false := by
  intro c hc
  rw [wifiCheckProps_fst] at hc
  split_ifs at hc <;>
    simp only [List.mem_singleton, List.not_mem_nil] at hc
  subst hc; rfl

-- A wifi check never terminates the run with the final exit_json.
theorem wifiCheckProps_no_finish (g : Bool) (pr : CmdRes) (st sk : String)
    (d : List (String × String)) (ig : Bool) (t : Term)
    (h : (wifiCheckProps g pr st sk d ig).2.1 = some t) :
    ∀ b o er, t ≠ Term.finish b o er := by
  intro b o er
  unfold wifiCheckProps at h
  split_ifs at h
  all_goals
    first
    | exact Option.noConfusion h
    | (obtain rfl := (Option.some.inj h).symm; simp)

-- The wifi stage only issues read-only capability probes.
theorem stageWifi_cmds (a : Args) (e : Env) :
    ∀ c ∈ (stageWifi a e).1, c.mutating = false := by
  intro c hc
  unfold stageWifi at hc
  rcases hw1 : wifiCheckProps (a.wifi ≠ []) e.wifiProbeRes "802-11-wireless"
      "wifi" (a.wifi.filter (fun p => p.1 ≠ "ssid"))
      a.ignore_unsupported_suboptions with ⟨tr1, o1, u1⟩
  have h1 : ∀ x ∈ tr1, Cmd.mutating x = false := fun x hx =>
    wifiCheckProps_cmds _ _ _ _ _ _ x (by rw [hw1]; exact hx)
  rw [hw1] at hc
  rcases hw2 : wifiCheckProps (a.wifi_sec ≠ []) e.wifiSecProbeRes
      "802-11-wireless-security" "wifi_sec" a.wifi_sec
      a.ignore_unsupported_suboptions with ⟨tr2, o2, u2⟩
  have h2 : ∀ x ∈ tr2, Cmd.mutating x = false := fun x hx =>
    wifiCheckProps_cmds _ _ _ _ _ _ x (by rw [hw2]; exact hx)
  rw [hw2] at hc
  cases o1 with
  | some t => exact h1 c hc
  | none =>
    cases o2 with
    | some t =>
      simp only [List.mem_append] at hc
      rcases hc with hm | hm
      · exact h1 c hm
      · exact h2 c hm
    | none =>
      simp only [List.mem_append] at hc
      rcases hc with hm | hm
      · exact h1 c hm
      · exact h2 c hm

-- The wifi stage never terminates the run with the final exit_json.
theorem stageWifi_no_finish (a : Args) (e : Env) (t : Term)
    (h : (stageWifi a e).2.1 = some t) :
    ∀ b o er, t ≠ Term.finish b o er := by
  unfold stageWifi at h
  rcases hw1 : wifiCheckProps (a.wifi ≠ []) e.wifiProbeRes "802-11-wireless"
      "wifi" (a.wifi.filter (fun p => p.1 ≠ "ssid"))
      a.ignore_unsupported_suboptions with ⟨tr1, o1, u1⟩
  rw [hw1] at h
  rcases hw2 : wifiCheckProps (a.wifi_sec ≠ []) e.wifiSecProbeRes
      "802-11-wireless-security" "wifi_sec" a.wifi_sec
      a.ignore_unsupported_suboptions with ⟨tr2, o2, u2⟩
  rw [hw2] at h
  cases o1 with
  | some t1 =>
    have := wifiCheckProps_no_finish _ _ _ _ _ _ t1 (by rw [hw1])
    simp only [Option.some.injEq] at h
    rw [← h]; exact this
  | none =>
    cases o2 with
    | some t2 =>
      have := wifiCheckProps_no_finish _ _ _ _ _ _ t2 (by rw [hw2])
      simp only [Option.some.injEq] at h
      rw [← h]; exact this
    | none => simp at h

-- When the parameters trip none of the pre-try validations and the
-- wifi dicts are empty for wifi connections, the pre-try stage issues
-- no command and changes nothing.
theorem stagePre_quiet (a : Args) (e : Env)
    (hslv : a.slave_type = none)
    (ht2 : a.ctype ≠ some "team") (ht3 : a.ctype ≠ some "team-slave")
    (hwifi : a.ctype = some "wifi" → a.wifi = [] ∧ a.wifi_sec = []) :
    stagePre a e = ([], none, a.wifi_sec) := by
  by_cases hw : a.ctype = some "wifi"
  · obtain ⟨h1, h2⟩ := hwifi hw
    unfold stagePre stageWifi
    simp [hslv, ht2, ht3, hw, h1, h2, wifiCheckProps_gate_false]
  · unfold stagePre
    simp [hslv, ht2, ht3, hw]

-- The pre-try stage only issues read-only capability probes.
theorem stagePre_cmds (a : Args) (e : Env) :
    ∀ c ∈ (stagePre a e).1, c.mutating = false := by
  intro c hc
  unfold stagePre at hc
  split_ifs at hc <;>
    first
    | simp only [List.not_mem_nil] at hc
    | exact stageWifi_cmds a e c hc

-- The pre-try stage never terminates the run with the final exit_json.
theorem stagePre_no_finish (a : Args) (e : Env) (t : Term)
    (h : (stagePre a e).2.1 = some t) :
    ∀ b o er, t ≠ Term.finish b o er := by
  intro b o er
  unfold stagePre at h
  split_ifs at h <;>
    first
    | exact Option.noConfusion h
    | (obtain rfl := (Option.some.inj h).symm; simp)
    | exact stageWifi_no_finish a e t h b o er

-- is_connection_changed only issues show queries.
theorem isConnChanged_cmds (a : Args) (e : Env) :
    ∀ c ∈ (isConnChanged a e).1, c.mutating = false := by
  intro c hc
  unfold isConnChanged at hc
  split_ifs at hc <;>
    simp only [List.mem_singleton, List.mem_cons, List.not_mem_nil,
      or_false] at hc <;>
    first
    | (subst hc; rfl)
    | (rcases hc with rfl | rfl <;> rfl)

-- The create-or-skip phase of the present branch in check mode issues
-- only the listing and exits early or reports changed=false.
theorem runPresentPhase2_check (a : Args) (e : Env) (ct : Option String)
    (w : List (String × String)) (h : a.check_mode = true) :
    runPresentPhase2 a e ct w none =
      (if e.listRes2.rc ≠ 0 then
        ([Cmd.listConns], Term.fail none e.listRes2.err)
      else if ¬ connectionExists a.conn_name e.listRes2.out then
        ([Cmd.listConns], Term.earlyExit true)
      else ([Cmd.listConns], Term.finish false "" "")) := by
  unfold runPresentPhase2
  simp only [h, eq_self_iff_true, if_true]

-- The absent branch in check mode issues only the listing and reports
-- changed=false when it reaches the final exit.
theorem runAbsent_check (a : Args) (e : Env) (h : a.check_mode = true) :
    (∀ c ∈ (runAbsent a e).1, c.mutating = false) ∧
    (∀ b o er, (runAbsent a e).2 = Term.finish b o er → b = false) := by
  unfold runAbsent
  simp only [h, eq_self_iff_true, if_true]
  constructor
  · intro c hc
    split_ifs at hc <;>
      simp only [List.mem_singleton, List.not_mem_nil] at hc <;>
      (subst hc; rfl)
  · intro b o er hf
    split_ifs at hf <;> simp_all

-- The up branch in check mode.
theorem runUp_check (a : Args) (e : Env) (h : a.check_mode = true) :
    (∀ c ∈ (runUp a e).1, c.mutating = false) ∧
    (∀ b o er, (runUp a e).2 = Term.finish b o er → b = false) := by
  unfold runUp
  simp only [h, eq_self_iff_true, if_true]
  constructor
  · intro c hc
    split_ifs at hc <;>
      simp only [List.mem_singleton, List.not_mem_nil] at hc <;>
      (subst hc; rfl)
  · intro b o er hf
    split_ifs at hf <;> simp_all

-- The down branch in check mode.
theorem runDown_check (a : Args) (e : Env) (h : a.check_mode = true) :
    (∀ c ∈ (runDown a e).1, c.mutating = false) ∧
    (∀ b o er, (runDown a e).2 = Term.finish b o er → b = false) := by
  unfold runDown
  simp only [h, eq_self_iff_true, if_true]
  constructor
  · intro c hc
    split_ifs at hc <;>
      simp only [List.mem_singleton, List.not_mem_nil] at hc <;>
      (subst hc; rfl)
  · intro b o er hf
    split_ifs at hf <;> simp_all

-- The present branch in check mode.
theorem runPresent_check (a : Args) (e : Env) (w : List (String × String))
    (h : a.check_mode = true) :
    (∀ c ∈ (runPresent a e w).1, c.mutating = false) ∧
    (∀ b o er, (runPresent a e w).2 = Term.finish b o er → b = false) := by
  rcases hic : isConnChanged a e with ⟨shTr, r⟩
  have hsh : ∀ x ∈ shTr, Cmd.mutating x = false := fun x hx =>
    isConnChanged_cmds a e x (by rw [hic]; exact hx)
  have hph := runPresentPhase2_check a e a.ctype w h
  constructor
  · intro c hc
    unfold runPresent at hc
    rw [hic] at hc
    simp only [h, eq_self_iff_true, if_true] at hc
    cases r with
    | error msg =>
      rw [hph] at hc
      split_ifs at hc <;>
        simp only [List.mem_cons, List.mem_singleton, List.not_mem_nil,
          or_false] at hc <;>
        first
        | (subst hc; rfl)
        | (rcases hc with rfl | rfl <;> rfl)
        | (rcases hc with rfl | hm
           · rfl
           · exact hsh c hm)
    | ok p =>
      rcases p with ⟨changed, ct⟩
      simp only at hc
      rw [hph] at hc
      split_ifs at hc <;>
        simp only [List.mem_cons, List.mem_singleton, List.not_mem_nil,
          or_false] at hc <;>
        first
        | (subst hc; rfl)
        | (rcases hc with rfl | rfl <;> rfl)
        | (rcases hc with rfl | hm
           · rfl
           · exact hsh c hm)
  · intro b o er hf
    unfold runPresent at hf
    rw [hic] at hf
    simp only [h, eq_self_iff_true, if_true] at hf
    cases r with
    | error msg =>
      rw [hph] at hf
      split_ifs at hf <;> simp_all
    | ok p =>
      rcases p with ⟨changed, ct⟩
      simp only at hf
      rw [hph] at hf
      split_ifs at hf <;> simp_all

-- The whole state dispatch in check mode.
theorem dispatch_check (a : Args) (e : Env) (w : List (String × String))
    (h : a.check_mode = true) :
    (∀ c ∈ (dispatch a e w).1, c.mutating = false) ∧
    (∀ b o er, (dispatch a e w).2 = Term.finish b o er → b = false) := by
  unfold dispatch
  split_ifs
  · exact runAbsent_check a e h
  · exact runPresent_check a e w h
  · exact runUp_check a e h
  · exact runDown_check a e h
  · constructor
    · intro c hc; simp at hc
    · intro b o er hf; simp at hf; simp [hf]

/-! Claim theorems. -/

/-- C6: in a desired address list, every IPv4 address without a slash
is emitted with /32 appended and every IPv6 address without a slash
with /128 appended, while addresses that already contain a slash pass
through unchanged (elementwise, preserving length and order). -/
theorem c6_cidr_defaulting (l4 l6 r4 r6 : List String)
    (h4 : enforce_ipv4_cidr_notation (some l4) = some r4)
    (h6 : enforce_ipv6_cidr_notation (some l6) = some r6) :
    r4.length = l4.length ∧ r6.length = l6.length ∧
    (∀ i (hi : i < l4.length) (hi' : i < r4.length),
      ((l4.get ⟨i, hi⟩).toList.contains '/' = true →
        r4.get ⟨i, hi'⟩ = l4.get ⟨i, hi⟩) ∧
      ((l4.get ⟨i, hi⟩).toList.contains '/' = false →
        r4.get ⟨i, hi'⟩ = l4.get ⟨i, hi⟩ ++ "/32")) ∧
    (∀ i (hi : i < l6.length) (hi' : i < r6.length),
      ((l6.get ⟨i, hi⟩).toList.contains '/' = true →
        r6.get ⟨i, hi'⟩ = l6.get ⟨i, hi⟩) ∧
      ((l6.get ⟨i, hi⟩).toList.contains '/' = false →
        r6.get ⟨i, hi'⟩ = l6.get ⟨i, hi⟩ ++ "/128")) := by
  simp only [ enforce_ipv4_cidr_notation, Option.some.injEq] at h4
  simp only [ enforce_ipv6_cidr_notation, Option.some.injEq] at h6
  subst h4; subst h6
  refine ⟨List.length_map _ _, List.length_map _ _, ?_, ?_⟩
  · intro i hi hi'
    refine ⟨fun hc => ?_, fun hc => ?_⟩ <;>
      simp only [List.get_eq_getElem] at hc ⊢ <;>
      simp [List.getElem_map] <;> simp at hc <;> simp [hc]
  · intro i hi hi'
    refine ⟨fun hc => ?_, fun hc => ?_⟩ <;>
      simp only [List.get_eq_getElem] at hc ⊢ <;>
      simp [List.getElem_map] <;> simp at hc <;> simp [hc]

/-- C4 (amended): in the change detector, for the six order-sensitive
address/DNS/search keys a desired list that is a proper reordering of
the observed list is reported as a change; for every other list-typed
setting except the route lists (ipv4.routes, ipv6.routes, whose
observed value is re-rendered by get_route_params before the
comparison) a reordering is not reported as a change. -/
theorem c4_list_reorder_detection (ctype : Option String) (mtu : Option Int)
    (key : String) (cur val : List String) (hperm : cur.Perm val) :
    (key ∈ orderSensitiveKeys → cur ≠ val →
      (compare_conn_params ctype mtu
        [(key, .list cur)] [(key, .list val)]).1 = true) ∧
    (settings_type key = .list → key ∉ orderSensitiveKeys →
      key ≠ "ipv4.routes" → key ≠ "ipv6.routes" →
      (compare_conn_params ctype mtu
        [(key, .list cur)] [(key, .list val)]).1 = false) := by
  have hmac := mac_setting_cases ctype
  constructor
  · intro hmem hne
    simp only [orderSensitiveKeys, List.mem_cons, List.not_mem_nil, or_false] at hmem
    rcases hmem with rfl | rfl | rfl | rfl | rfl | rfl <;>
      rw [compareStep_list_list ctype mtu _ cur val (by decide) (by decide)
        (by decide) (by rcases hmac with h | h <;> rw [h] <;> decide)
        (by decide) (by decide)] <;>
      simp [orderSensitiveKeys, hne]
  · intro hlist hno hr4 hr6
    have hmem := settings_type_list_mem key hlist
    simp only [listSettingKeys, List.mem_cons, List.not_mem_nil, or_false] at hmem
    rcases hmem with rfl|rfl|rfl|rfl|rfl|rfl|rfl|rfl|rfl|rfl|rfl|rfl|rfl|rfl|rfl|rfl|rfl|rfl <;>
      first
      | exact absurd (by decide) hno
      | exact absurd rfl hr4
      | exact absurd rfl hr6
      | (rw [compareStep_list_list ctype mtu _ cur val (by decide) hr4 hr6
            (by rcases hmac with h | h <;> rw [h] <;> decide)
            (by decide) (by decide)]
         simp [orderSensitiveKeys, sortList_perm_eq hperm])

/-- Closed instance of C4 at concrete reordered lists: the DNS list
reports a change, the DNS-options list does not. -/
theorem c4_list_reorder_detection_witness :
    (["8.8.8.8", "9.9.9.9"].Perm ["9.9.9.9", "8.8.8.8"] ∧
      ["8.8.8.8", "9.9.9.9"] ≠ ["9.9.9.9", "8.8.8.8"]) ∧
    (compare_conn_params none none
      [("ipv4.dns", .list ["8.8.8.8", "9.9.9.9"])]
      [("ipv4.dns", .list ["9.9.9.9", "8.8.8.8"])]).1 = true ∧
    (compare_conn_params none none
      [("ipv4.dns-options", .list ["rotate", "timeout:1"])]
      [("ipv4.dns-options", .list ["timeout:1", "rotate"])]).1 = false := by
  refine ⟨⟨by decide, by decide⟩, ?_, ?_⟩
  · exact (c4_list_reorder_detection none none "ipv4.dns"
      ["8.8.8.8", "9.9.9.9"] ["9.9.9.9", "8.8.8.8"] (by decide)).1
      (by decide) (by decide)
  · exact (c4_list_reorder_detection none none "ipv4.dns-options"
      ["rotate", "timeout:1"] ["timeout:1", "rotate"] (by decide)).2
      (by decide) (by decide) (by decide) (by decide)

/-- C4 counterexample: ipv4.routes is a list-typed setting outside the
order-sensitive six, yet a desired list that is a proper reordering of
the observed list is reported as a change, because the observed raw
route strings are re-rendered by get_route_params before the unordered
comparison. -/
theorem c4_routes_reorder_reported_cex :
    settings_type "ipv4.routes" = SettingType.list ∧
    "ipv4.routes" ∉ orderSensitiveKeys ∧
    ["ip=10.1.0.0/24", "ip=10.0.0.0/24"].Perm
      ["ip=10.0.0.0/24", "ip=10.1.0.0/24"] ∧
    ["ip=10.1.0.0/24", "ip=10.0.0.0/24"] ≠
      ["ip=10.0.0.0/24", "ip=10.1.0.0/24"] ∧
    (compare_conn_params none none
      [("ipv4.routes", .list ["ip=10.0.0.0/24", "ip=10.1.0.0/24"])]
      [("ipv4.routes", .list ["ip=10.1.0.0/24", "ip=10.0.0.0/24"])]).1
      = true := by
  refine ⟨rfl, by decide, by decide, by decide, by decide⟩

/-- C5: for the MAC-address setting of the selected connection type,
observed and desired values that differ only in letter case are not
reported as a change by the detector. -/
theorem c5_mac_case_insensitive (ctype : Option String) (mtu : Option Int)
    (c v : String) (h : strToUpper c = strToUpper v) :
    (compare_conn_params ctype mtu
      [(mac_setting ctype, .str c)] [(mac_setting ctype, .str v)]).1
      = false := by
  have hmac := mac_setting_cases ctype
  have hw : mac_setting ctype ≠ "802-11-wireless.wake-on-wlan" := by
    rcases hmac with h1 | h1 <;> rw [h1] <;> decide
  have hr4 : mac_setting ctype ≠ "ipv4.routes" := by
    rcases hmac with h1 | h1 <;> rw [h1] <;> decide
  have hr6 : mac_setting ctype ≠ "ipv6.routes" := by
    rcases hmac with h1 | h1 <;> rw [h1] <;> decide
  have hgsm : mac_setting ctype ≠ "gsm.apn" := by
    rcases hmac with h1 | h1 <;> rw [h1] <;> decide
  have hvpn : mac_setting ctype ≠ "vpn.data" := by
    rcases hmac with h1 | h1 <;> rw [h1] <;> decide
  have hmtu : mac_setting ctype ≠ mtu_setting ctype := by
    rcases hmac with h1 | h1 <;> rcases mtu_setting_cases ctype with h2 | h2 <;>
      rw [h1, h2] <;> decide
  by_cases hv : v = ""
  · subst hv; simp [compare_conn_params, compareStep]
  · by_cases hc : c = ""
    · subst hc
      have hvu : strToUpper v = "" := h.symm.trans rfl
      simp [compare_conn_params, compareStep, hw, hr4, hr6, hgsm, hvpn,
        hmtu, hv, List.lookup, pyTruthy, pyToText, hvu]
    · simp [compare_conn_params, compareStep, hw, hr4, hr6, hgsm, hvpn,
        hmtu, hv, hc, List.lookup, pyTruthy, pyToText, h]

/-- Closed instance of C5 at the MAC pair named by the claim. -/
theorem c5_mac_case_insensitive_witness :
    strToUpper "AA:BB:CC:DD:EE:FF" = strToUpper "aa:bb:cc:dd:ee:ff" ∧
    (compare_conn_params (some "ethernet") none
      [(mac_setting (some "ethernet"), .str "AA:BB:CC:DD:EE:FF")]
      [(mac_setting (some "ethernet"), .str "aa:bb:cc:dd:ee:ff")]).1
      = false :=
  ⟨by decide, c5_mac_case_insensitive (some "ethernet") none
    "AA:BB:CC:DD:EE:FF" "aa:bb:cc:dd:ee:ff" (by decide)⟩

/-- Closed instance of C6 at a concrete address list. -/
theorem c6_cidr_defaulting_witness :
    ("10.0.0.5".toList.contains '/' = false ∧
      "10.0.0.6/24".toList.contains '/' = true) ∧
    (["10.0.0.5/32", "10.0.0.6/24"].get ⟨0, by decide⟩ = "10.0.0.5" ++ "/32" ∧
      ["10.0.0.5/32", "10.0.0.6/24"].get ⟨1, by decide⟩ = "10.0.0.6/24" ∧
      ["fd00::1/128"].get ⟨0, by decide⟩ = "fd00::1" ++ "/128") := by
  have h := c6_cidr_defaulting ["10.0.0.5", "10.0.0.6/24"] ["fd00::1"]
    ["10.0.0.5/32", "10.0.0.6/24"] ["fd00::1/128"] (by decide) (by decide)
  refine ⟨by decide, ?_, ?_, ?_⟩
  · exact (h.2.2.1 0 (by decide) (by decide)).2 (by decide)
  · exact (h.2.2.1 1 (by decide) (by decide)).1 (by decide)
  · exact (h.2.2.2 0 (by decide) (by decide)).2 (by decide)

-- Replacing the value for one key does not affect lookups of other
-- keys (map branch of assocUpd).
theorem lookup_map_replace {β : Type} (m : List (String × β)) (k k' : String)
    (v : β) (h : k' ≠ k) :
    (m.map (fun p => if p.1 = k then (k, v) else p)).lookup k' =
      m.lookup k' := by
  induction m with
  | nil => rfl
  | cons p t ih =>
    by_cases hp : p.1 = k
    · rw [List.map_cons, if_pos hp]
      have hk : (k' == k) = false := by simp [h]
      have hk2 : (k' == p.1) = false := by simp [hp, h]
      simp [List.lookup, hk, hk2, ih]
    · rw [List.map_cons, if_neg hp]
      by_cases hq : k' = p.1
      · simp [List.lookup, hq]
      · have hqf : (k' == p.1) = false := by simp [hq]
        simp [List.lookup, hqf, ih]

-- Appending an entry for one key does not affect lookups of other keys.
theorem lookup_append_single {β : Type} (m : List (String × β))
    (k k' : String) (v : β) (h : k' ≠ k) :
    (m ++ [(k, v)]).lookup k' = m.lookup k' := by
  induction m with
  | nil => simp [List.lookup, show (k' == k) = false from by simp [h]]
  | cons p t ih =>
    simp only [List.cons_append, List.lookup]
    cases hb : (k' == p.1) <;> simp [hb, ih]

-- Python dict assignment for one key does not affect other keys.
theorem assocUpd_lookup_ne {β : Type} (m : List (String × β))
    (k k' : String) (v : β) (h : k' ≠ k) :
    (assocUpd m k v).lookup k' = m.lookup k' := by
  unfold assocUpd
  split_ifs with hany
  · exact lookup_map_replace m k k' v h
  · exact lookup_append_single m k k' v h

-- A dict update whose keys all differ from a given key does not affect
-- that key's lookup.
theorem foldl_assocUpd_lookup_ne {β : Type} (extra : List (String × β))
    (m : List (String × β)) (k' : String)
    (h : ∀ p ∈ extra, p.1 ≠ k') :
    (extra.foldl (fun acc kv => assocUpd acc kv.1 kv.2) m).lookup k' =
      m.lookup k' := by
  induction extra generalizing m with
  | nil => rfl
  | cons q qs ih =>
    rw [List.foldl_cons]
    rw [ih _ (fun p hp => h p (by simp [hp]))]
    exact assocUpd_lookup_ne m q.1 k' q.2 (Ne.symm (h q (by simp)))

-- A dict update whose keys all differ from the head key keeps the head
-- entry in place.
theorem foldl_assocUpd_head {β : Type} (extra : List (String × β))
    (p : String × β) (m : List (String × β))
    (h : ∀ q ∈ extra, q.1 ≠ p.1) :
    ∃ t, extra.foldl (fun acc kv => assocUpd acc kv.1 kv.2) (p :: m) =
      p :: t := by
  induction extra generalizing m with
  | nil => exact ⟨m, rfl⟩
  | cons q qs ih =>
    have hq : q.1 ≠ p.1 := h q (by simp)
    have hstep : assocUpd (p :: m) q.1 q.2 =
        p :: (if m.any (fun r => r.1 = q.1) then
          m.map (fun r => if r.1 = q.1 then (q.1, q.2) else r)
        else m ++ [(q.1, q.2)]) := by
      unfold assocUpd
      by_cases hm : m.any (fun r => r.1 = q.1)
      · simp [List.any_cons, Ne.symm hq, hm]
      · simp [List.any_cons, Ne.symm hq, hm]
    rw [List.foldl_cons, hstep]
    split_ifs with hm
    · exact ih _ (fun r hr => h r (by simp [hr]))
    · exact ih _ (fun r hr => h r (by simp [hr]))

-- One emission step extends the accumulator on the right.
theorem emitStep_acc (acc : List String × List String)
    (kv : String × Option String) :
    emitStep acc kv = (acc.1 ++ (emitStep ([], []) kv).1,
      acc.2 ++ (emitStep ([], []) kv).2) := by
  rcases kv with ⟨k, v?⟩
  cases v? with
  | none => simp [emitStep]
  | some v =>
    unfold emitStep
    split_ifs <;> simp

-- The emission loop distributes over an initial accumulator.
theorem foldl_emitStep_append (opts : List (String × Option String))
    (c e : List String) :
    opts.foldl emitStep (c, e) =
      (c ++ (emitOptions opts).1, e ++ (emitOptions opts).2) := by
  induction opts generalizing c e with
  | nil => simp [emitOptions]
  | cons kv rest ih =>
    rw [emitOptions, List.foldl_cons, List.foldl_cons, ih, ih,
      emitStep_acc (c, e) kv, emitStep_acc ([], []) kv]
    simp

/-- C1 (amended): in dry-run/check mode every mutating action is
skipped — no mutating nmcli command is ever issued and any run that
reaches the final exit reports changed=false (skipped mutations exit
early reporting a would-be change) — but the driver does still invoke
nmcli for read-only queries, so the original clause that it makes no
call at all to the external tool is dropped. -/
theorem c1_check_mode_no_mutating_cmds (a : Args) (e : Env)
    (h : a.check_mode = true) :
    (∀ c ∈ (runMain a e).1, c.mutating = false) ∧
    (∀ b o er, (runMain a e).2 = Term.finish b o er → b = false) := by
  unfold runMain
  rcases hsp : stagePre a e with ⟨tr, t?, wsec⟩
  have htr : ∀ c ∈ tr, Cmd.mutating c = false := fun c hc => by
    have hply := stagePre_cmds a e c
    rw [hsp] at hply
    exact hply hc
  cases t? with
  | some t =>
    constructor
    · intro c hc
      exact htr c hc
    · intro b o er hf
      have hnf := stagePre_no_finish a e t (by rw [hsp])
      exact absurd hf (hnf b o er)
  | none =>
    have hd := dispatch_check a e wsec h
    constructor
    · intro c hc
      simp only [List.mem_append] at hc
      rcases hc with hm | hm
      · exact htr c hm
      · exact hd.1 c hm
    · intro b o er hf
      exact hd.2 b o er hf

/-- Closed instance of C1 (amended) on a check-mode state=absent run
against an existing connection. -/
theorem c1_check_mode_no_mutating_cmds_witness :
    argsAbsentChk.check_mode = true ∧
    (runMain argsAbsentChk envNeutral).1 = [Cmd.listConns] ∧
    Cmd.listConns.mutating = false := by
  refine ⟨rfl, by decide, ?_⟩
  exact (c1_check_mode_no_mutating_cmds argsAbsentChk envNeutral rfl).1
    Cmd.listConns (by decide)

/-- C1 counterexample: a check-mode invocation with state=absent on an
existing connection still invokes the external nmcli tool (the
read-only connection listing of connection_exists), so the driver does
not make zero nmcli calls in that mode. -/
theorem c1_check_mode_calls_nmcli_cex :
    argsAbsentChk.check_mode = true ∧
    runMain argsAbsentChk envNeutral =
      ([Cmd.listConns], Term.earlyExit true) ∧
    (runMain argsAbsentChk envNeutral).1 ≠ [] := by
  exact ⟨rfl, by decide, by decide⟩

/-- C2 (amended): for state=absent on an existing connection outside
check mode, the driver runs down and then delete unconditionally and
inspects only the delete status: a nonzero delete exit is fatal and the
report carries that exit code and its stderr, while a nonzero down exit
is overwritten — the deletion still runs and the run can finish
successfully. -/
theorem c2_delete_failure_fatal (a : Args) (e : Env)
    (hstate : a.state = "absent") (hchk : a.check_mode = false)
    (hslv : a.slave_type = none) (ht2 : a.ctype ≠ some "team")
    (ht3 : a.ctype ≠ some "team-slave") (ht4 : a.ctype ≠ some "wifi")
    (hrc : e.listRes1.rc = 0)
    (hex : connectionExists a.conn_name e.listRes1.out = true) :
    runMain a e = ([Cmd.listConns, Cmd.down a.conn_name, Cmd.del a.conn_name],
      if e.delRes.rc ≠ 0 then Term.fail (some e.delRes.rc) e.delRes.err
      else Term.finish true e.delRes.out e.delRes.err) := by
  unfold runMain
  rw [stagePre_quiet a e hslv ht2 ht3 (fun hw => absurd hw ht4)]
  unfold dispatch runAbsent
  simp [hstate, hchk, hrc, hex]
  split_ifs <;> rfl

/-- Closed instance of C2 (amended): the failing delete is fatal with
its exit code and stderr. -/
theorem c2_delete_failure_fatal_witness :
    runMain argsAbsent envDelFail =
      ([Cmd.listConns, Cmd.down "c0", Cmd.del "c0"],
        if envDelFail.delRes.rc ≠ 0 then
          Term.fail (some envDelFail.delRes.rc) envDelFail.delRes.err
        else Term.finish true envDelFail.delRes.out envDelFail.delRes.err) :=
  c2_delete_failure_fatal argsAbsent envDelFail rfl rfl rfl (by decide)
    (by decide) (by decide) rfl (by decide)

/-- C2 counterexample: the down command (a mutating external command)
returns exit code 4, yet the run does not end as a fatal error — the
delete still executes afterwards and the run finishes successfully. -/
theorem c2_down_failure_not_fatal_cex :
    envDownFail.downRes.rc = 4 ∧ envDownFail.downRes.rc ≠ 0 ∧
    runMain argsAbsent envDownFail =
      ([Cmd.listConns, Cmd.down "c0", Cmd.del "c0"],
        Term.finish true "" "") := by
  exact ⟨rfl, by decide, by decide⟩

/-- C3 (amended): with state=present, no existing connection and mtu
set, the driver issues exactly one create command automatically
followed by one up command when the connection type is bond, dummy,
ethernet, infiniband or wifi (the types for which
create_connection_up reacts to mtu); the whole run is the two
listings, the create and the up. -/
theorem c3_create_then_up_for_up_types (a : Args) (e : Env)
    (hstate : a.state = "present") (hchk : a.check_mode = false)
    (hty : a.ctype = some "bond" ∨ a.ctype = some "dummy"
      ∨ a.ctype = some "ethernet" ∨ a.ctype = some "infiniband"
      ∨ a.ctype = some "wifi")
    (hmtu : a.mtu ≠ none) (hslv : a.slave_type = none)
    (hw1 : a.wifi = []) (hw2 : a.wifi_sec = [])
    (hl1 : e.listRes1.rc = 0)
    (hne1 : connectionExists a.conn_name e.listRes1.out = false)
    (hl2 : e.listRes2.rc = 0)
    (hne2 : connectionExists a.conn_name e.listRes2.out = false) :
    runMain a e = ([Cmd.listConns, Cmd.listConns,
        Cmd.add a.conn_name, Cmd.up a.conn_name],
      if e.upRes.rc ≠ 0 then Term.fail (some e.upRes.rc) e.upRes.err
      else Term.finish true e.upRes.out e.upRes.err) := by
  have ht2 : a.ctype ≠ some "team" := by
    rcases hty with h | h | h | h | h <;> rw [h] <;> decide
  have ht3 : a.ctype ≠ some "team-slave" := by
    rcases hty with h | h | h | h | h <;> rw [h] <;> decide
  have hup : create_connection_up a.ctype a.mtu a.dns4 a.dns6 = true := by
    unfold create_connection_up
    rcases hty with h | h | h | h | h <;> rw [h] <;> simp [hmtu]
  have hsec : secretsActive a.ctype a.wifi_sec = false := by
    simp [secretsActive, hw2]
  unfold runMain
  rw [stagePre_quiet a e hslv ht2 ht3 (fun _ => ⟨hw1, hw2⟩)]
  unfold dispatch runPresent runPresentPhase2 runCreateConn
  simp [hstate, hchk, hl1, hne1, hl2, hne2, hup, hsec]
  refine ⟨?_, ?_⟩ <;> split_ifs <;> rfl

/-- Closed instance of C3 (amended) at type ethernet. -/
theorem c3_create_then_up_for_up_types_witness :
    runMain argsPresentEthMtu envNoConn =
      ([Cmd.listConns, Cmd.listConns, Cmd.add "c0", Cmd.up "c0"],
        if envNoConn.upRes.rc ≠ 0 then
          Term.fail (some envNoConn.upRes.rc) envNoConn.upRes.err
        else
          Term.finish true envNoConn.upRes.out envNoConn.upRes.err) :=
  c3_create_then_up_for_up_types argsPresentEthMtu envNoConn rfl rfl
    (Or.inr (Or.inr (Or.inl rfl))) (by decide) rfl rfl rfl rfl
    (by decide) rfl (by decide)

/-- C3 counterexample: with state=present, a nonexistent connection,
type bridge and mtu set, the driver issues the create command but no up
command at all, refuting the unconditional create-then-up claim. -/
theorem c3_bridge_mtu_no_up_cex :
    argsPresentBridgeMtu.state = "present" ∧
    argsPresentBridgeMtu.mtu = some 1500 ∧
    runMain argsPresentBridgeMtu envNoConn =
      ([Cmd.listConns, Cmd.listConns, Cmd.add "c0"],
        Term.finish true "" "") ∧
    Cmd.up "c0" ∉ (runMain argsPresentBridgeMtu envNoConn).1 := by
  exact ⟨rfl, rfl, by decide, by decide⟩

/-- C7: for state=absent when no connection of the given name exists,
the driver performs no external mutating call — the only nmcli
invocation is the read-only listing — and the result reports
changed=false. -/
theorem c7_absent_nonexistent_noop (a : Args) (e : Env)
    (hstate : a.state = "absent") (hslv : a.slave_type = none)
    (ht2 : a.ctype ≠ some "team") (ht3 : a.ctype ≠ some "team-slave")
    (ht4 : a.ctype ≠ some "wifi") (hrc : e.listRes1.rc = 0)
    (hne : connectionExists a.conn_name e.listRes1.out = false) :
    runMain a e = ([Cmd.listConns], Term.finish false "" "") := by
  unfold runMain
  rw [stagePre_quiet a e hslv ht2 ht3 (fun hw => absurd hw ht4)]
  unfold dispatch runAbsent
  simp [hstate, hrc, hne]

/-- Closed instance of C7. -/
theorem c7_absent_nonexistent_noop_witness :
    runMain argsAbsent envNoConn = ([Cmd.listConns], Term.finish false "" "") :=
  c7_absent_nonexistent_noop argsAbsent envNoConn rfl rfl (by decide)
    (by decide) (by decide) rfl (by decide)

/-- C8: for state=up with conn_reload=true on an existing connection
(outside check mode), the driver issues exactly one reload command
followed immediately by one up command, in that order, with no other
external command in between — the full command trace is the read-only
listing, then reload, then up. -/
theorem c8_up_reload_order (a : Args) (e : Env)
    (hstate : a.state = "up") (hrel : a.conn_reload = true)
    (hchk : a.check_mode = false) (hslv : a.slave_type = none)
    (ht2 : a.ctype ≠ some "team") (ht3 : a.ctype ≠ some "team-slave")
    (ht4 : a.ctype ≠ some "wifi") (hrc : e.listRes1.rc = 0)
    (hex : connectionExists a.conn_name e.listRes1.out = true) :
    runMain a e = ([Cmd.listConns, Cmd.reload, Cmd.up a.conn_name],
      if e.upRes.rc ≠ 0 then Term.fail (some e.upRes.rc) e.upRes.err
      else Term.finish true e.upRes.out e.upRes.err) := by
  unfold runMain
  rw [stagePre_quiet a e hslv ht2 ht3 (fun hw => absurd hw ht4)]
  unfold dispatch runUp
  simp [hstate, hrel, hchk, hrc, hex]
  split_ifs <;> rfl

/-- Closed instance of C8. -/
theorem c8_up_reload_order_witness :
    runMain argsUpReload envNeutral =
      ([Cmd.listConns, Cmd.reload, Cmd.up "c0"],
        if envNeutral.upRes.rc ≠ 0 then
          Term.fail (some envNeutral.upRes.rc) envNeutral.upRes.err
        else
          Term.finish true envNeutral.upRes.out envNeutral.upRes.err) :=
  c8_up_reload_order argsUpReload envNeutral rfl rfl rfl rfl (by decide)
    (by decide) (by decide) rfl (by decide)

/-- C9: in the option map built by connection_update, a create with
ifname unset and a non-vpn type sets connection.interface-name to the
connection name (and the built argument vector starts with the add
preamble followed by that pair); a create with vpn type and ifname
unset carries no connection.interface-name entry at all; a modify uses
ifname exactly as given — present with the given value when set, and
never defaulted to the connection name when unset (a None value is then
skipped at emission).  connection_options (the abstract extra map)
never produces a connection.interface-name entry, which the hypothesis
records. -/
theorem c9_ifname_defaulting (conn_name : String) (ctype : Option String)
    (iname : String) (extra : List (String × Option String))
    (hx : ∀ p ∈ extra, p.1 ≠ "connection.interface-name") :
    ((connection_update_options "create" conn_name none ctype
        extra).lookup "connection.interface-name" =
      if ctype = some "vpn" then none else some (some conn_name)) ∧
    ((connection_update_options "modify" conn_name (some iname) ctype
        extra).lookup "connection.interface-name" = some (some iname)) ∧
    (ctype ≠ some "vpn" →
      (connection_update_options "modify" conn_name none ctype
        extra).lookup "connection.interface-name" = some none) ∧
    (ctype ≠ some "vpn" → ∀ cmd edits,
      connection_update_cmd "create" conn_name none ctype extra =
        some (cmd, edits) →
      ∃ rest, cmd = ["nmcli", "con", "add", "type",
        (if tunnel_conn_type ctype then "ip-tunnel"
          else (match ctype with | some t => t | none => "None")),
        "con-name", conn_name, "connection.interface-name", conn_name]
        ++ rest) := by
  refine ⟨?_, ?_, ?_, ?_⟩
  · unfold connection_update_options
    rw [foldl_assocUpd_lookup_ne extra _ _ hx]
    by_cases hv : ctype = some "vpn" <;>
      simp [hv, List.lookup, List.filter]
  · unfold connection_update_options
    rw [foldl_assocUpd_lookup_ne extra _ _ hx]
    simp [List.lookup]
  · intro hnv
    unfold connection_update_options
    rw [foldl_assocUpd_lookup_ne extra _ _ hx]
    simp [hnv, List.lookup]
  · intro hnv cmd edits hcmd
    obtain ⟨t, ht⟩ := foldl_assocUpd_head extra
      ("connection.interface-name", some conn_name) [] hx
    have hemit : emitOptions
        (("connection.interface-name", some conn_name) :: t) =
        (["connection.interface-name", conn_name] ++ (emitOptions t).1,
          [] ++ (emitOptions t).2) := by
      rw [emitOptions, List.foldl_cons]
      have h1 : emitStep ([], [])
          ("connection.interface-name", some conn_name) =
          (["connection.interface-name", conn_name], []) := by
        unfold emitStep
        simp [secretOptionKeys]
      rw [h1]
      exact foldl_emitStep_append t _ _
    unfold connection_update_cmd connection_update_options at hcmd
    simp only [hnv, false_and, if_false, and_true, eq_self_iff_true,
      and_self, if_true, reduceIte] at hcmd
    rw [ht, hemit] at hcmd
    simp only [Option.some.injEq, Prod.mk.injEq] at hcmd
    refine ⟨(emitOptions t).1, ?_⟩
    rw [← hcmd.1]
    simp

/-- Closed instance of C9 with an empty extra map. -/
theorem c9_ifname_defaulting_witness :
    ((connection_update_options "create" "c0" none none []).lookup
      "connection.interface-name" = some (some "c0")) ∧
    ((connection_update_options "modify" "c0" (some "eth7") none
      []).lookup "connection.interface-name" = some (some "eth7")) := by
  have h := c9_ifname_defaulting "c0" none "eth7" [] (by simp)
  exact ⟨by simpa using h.1, h.2.1⟩

/-- C10 (amended): for every show-output line whose value is the empty
marker --, the parser stores the empty list when the key's declared
setting type is list and None otherwise; however, a list-typed key can
still end up mapped to a raw string (including the string --) through
the bond.options alias expansion, so the mapping-level clause that an
observed list-typed setting is never a string does not hold. -/
theorem c10_empty_marker_parsing (m : List (String × PValue)) (k : String)
    (h1 : ':' ∉ k.toList) (h2 : strTrim k ≠ "") :
    processShowLine m (k ++ ":--") =
      (if settings_type (strTrim k) = SettingType.list then
        assocUpd m (strTrim k) (.list [])
      else assocUpd m (strTrim k) .null) := by
  have htl : (k ++ ":--").toList = k.toList ++ ':' :: '-' :: '-' :: [] := by
    have hd : (k ++ ":--").toList = k.toList ++ ":--".toList :=
      String.data_append k ":--"
    simpa using hd
  have hall : ∀ c ∈ k.toList, (fun c => decide (c ≠ ':')) c = true := by
    intro c hc
    simp only [decide_eq_true_eq]
    intro heq
    exact h1 (heq ▸ hc)
  unfold processShowLine
  rw [htl, List.span_eq_take_drop,
    takeWhile_append_all _ _ _ hall, dropWhile_append_all _ _ _ hall]
  simp only [List.takeWhile, List.dropWhile, decide_not]
  norm_num
  rw [show String.mk k.data = k from rfl]
  rw [if_neg h2]
  rw [show strTrimLeft (String.mk ['-', '-']) = "--" from by decide]
  rw [if_pos rfl]

/-- Closed instance of C10 (amended) at the list-typed key ipv4.dns and
a str-typed key. -/
theorem c10_empty_marker_parsing_witness :
    (processShowLine [] ("ipv4.dns" ++ ":--") =
      (if settings_type (strTrim "ipv4.dns") = SettingType.list then
        assocUpd [] (strTrim "ipv4.dns") (.list [])
      else assocUpd [] (strTrim "ipv4.dns") .null)) ∧
    processShowLine [] "ipv4.dns:--" = [("ipv4.dns", PValue.list [])] ∧
    processShowLine [] "ipv4.gateway:--" = [("ipv4.gateway", PValue.null)] := by
  refine ⟨?_, by decide, by decide⟩
  exact c10_empty_marker_parsing [] "ipv4.dns" (by decide) (by decide)

/-- C10 counterexample: a bond.options line whose alias name collides
with the list-typed key ipv4.dns maps that key to the raw string --,
so an observed list-typed setting can be mapped to the string -- after
all. -/
theorem c10_list_key_string_cex :
    settings_type "ipv4.dns" = SettingType.list ∧
    (parseShowOutput "bond.options:ipv4.dns=--").lookup "ipv4.dns" =
      some (PValue.str "--") := by
  exact ⟨rfl, by decide⟩

end NmcliModule
